import Mathlib

/-!
Verification of the auto-favicon-injector library (src/lib/injector.js).

The library walks a directory tree, parses each HTML file with an HTML
parser (cheerio), and inserts a link tag with a favicon rel into the
document head if no favicon link is present.  The HTML parser and the
filesystem are external collaborators; they are modelled here as data:
a parsed document is a value of type Doc, and the filesystem is a tree
of FSNode values carrying explicit failure points for the stat, read
and write operations that the code awaits.
-/

namespace FaviconInjector

/-- Result of a fallible filesystem operation: the operation either
returns a value or throws (modelled as err, caught by the code's
try/catch blocks). -/
inductive FsRes (α : Type) where
  | ok (a : α)
  | err
  deriving Repr, DecidableEq

/-- A DOM element as far as this program observes it: a tag name and an
attribute list (cheerio exposes attr lookup by name). -/
structure Element where
  tag : String
  attrs : List (String × String)
  deriving Repr, DecidableEq

/-- Cheerio attr: the value of the first attribute with the given name,
or none when the attribute is absent. -/
def getAttr (e : Element) (n : String) : Option String :=
  (e.attrs.find? (fun p => p.1 == n)).map (fun p => p.2)

/-- A parsed HTML document as far as this program observes it.
The field head is none when the document has no head element (the
code's branch for head.length === 0); otherwise it holds the list of
the head's child elements in order.  otherLinks holds the link
elements that live outside the head, in document order. -/
structure Doc where
  head : Option (List Element)
  otherLinks : List Element
  deriving Repr, DecidableEq

/-- The elements the selector for link tags returns: link-tagged
children of the head followed by link elements elsewhere. -/
def docLinks (d : Doc) : List Element :=
  (match d.head with
   | some hc => hc.filter (fun e => e.tag == "link")
   | none => []) ++ d.otherLinks.filter (fun e => e.tag == "link")

/-- The test applied to one link's rel attribute in hasFavicon:
rel && (rel === 'icon' || rel === 'shortcut icon' || rel === 'apple-touch-icon').
A missing attribute and the empty string are falsy in JS. -/
def relMatches : Option String → Bool
  | none => false
  | some r => !(r == "") && (r == "icon" || r == "shortcut icon" || r == "apple-touch-icon")

/-- The loop of hasFavicon over the selected link elements: returns at
the first element whose rel matches. -/
def hasFaviconLinks : List Element → Bool
  | [] => false
  | l :: rest => if relMatches (getAttr l ("rel")) then true else hasFaviconLinks rest

/-- hasFavicon from src/lib/injector.js: whether the parsed document
already carries a favicon link. -/
def hasFavicon (d : Doc) : Bool :=
  hasFaviconLinks (docLinks d)

/-- JS truthiness of an optional string field: undefined/null and the
empty string are falsy. -/
def truthy : Option String → Bool
  | none => false
  | some s => !(s == "")

/-- ASCII lowercasing, modelling String.prototype.toLowerCase on the
ASCII strings this program compares. -/
def strToLower (s : String) : String :=
  String.mk (s.data.map Char.toLower)

/-- String.prototype.startsWith: the second string is a prefix of the
first. -/
def strStartsWith (s p : String) : Bool :=
  s.data.take p.data.length == p.data

/-- String.prototype.endsWith: the second string is a suffix of the
first. -/
def strEndsWith (s p : String) : Bool :=
  s.data.reverse.take p.data.length == p.data.reverse

/-- Models Node's path.extname: the substring of the basename from its
last dot to its end; empty when the basename has no dot, when the only
dot is its first character, or when the basename is exactly two dots.
Trailing slashes are ignored. -/
def extname (p : String) : String :=
  let noTrail := (p.toList.reverse.dropWhile (fun c => c == '/')).reverse
  let b := (noTrail.reverse.takeWhile (fun c => c != '/')).reverse
  let tl := b.reverse.takeWhile (fun c => c != '.')
  if tl.length == b.length then ""
  else
    let i := b.length - tl.length - 1
    if i == 0 then ""
    else if b == ['.', '.'] then ""
    else String.mk (b.drop i)

/-- The switch in injectFavicon mapping the lowercased extension of the
favicon path to a MIME type; unknown extensions hit no case. -/
def autoType (p : String) : Option String :=
  match strToLower (extname p) with
  | ".ico" => some ("image/x-icon")
  | ".png" => some ("image/png")
  | ".svg" => some ("image/svg+xml")
  | ".jpg" => some ("image/jpeg")
  | ".jpeg" => some ("image/jpeg")
  | _ => none

/-- The options argument as the caller supplies it: a field is none
when absent from the object, mirroring the JS object spread that only
overrides fields the caller's object carries. -/
structure PartialOptions where
  path : Option String
  rel : Option String
  type : Option String
  sizes : Option String
  deriving Repr, DecidableEq

/-- injectFavicon accepts either a bare string (shorthand for an object
holding only path) or an options object. -/
inductive OptionsArg where
  | str (s : String)
  | obj (o : PartialOptions)
  deriving Repr, DecidableEq

/-- The normalized options record built by the defaults spread:
path '/favicon.ico', rel 'icon', type null, sizes null, each overridden
by a field the caller supplied. -/
structure FaviconOptions where
  path : String
  rel : String
  type : Option String
  sizes : Option String
  deriving Repr, DecidableEq

/-- The defaults spread of injectFavicon. -/
def applyDefaults (o : PartialOptions) : FaviconOptions :=
  { path := o.path.getD ("/favicon.ico")
    rel := o.rel.getD ("icon")
    type := o.type
    sizes := o.sizes }

/-- The MIME auto-detection step: when the type field is falsy, look up
the lowercased extension of the path; a miss leaves type unchanged. -/
def autoDetect (o : FaviconOptions) : FaviconOptions :=
  if truthy o.type then o
  else
    match autoType o.path with
    | some t => { o with type := some t }
    | none => o

/-- The backward-compatibility step of injectFavicon: a bare string
argument becomes an object holding only path. -/
def toPartial : OptionsArg → PartialOptions
  | .str s => { path := some s, rel := none, type := none, sizes := none }
  | .obj o => o

/-- Options normalization of injectFavicon: a bare string becomes an
object holding only path, the defaults are spread in, and the MIME
type is auto-detected when absent. -/
def normalizeOptions (arg : OptionsArg) : FaviconOptions :=
  autoDetect (applyDefaults (toPartial arg))

/-- The path field of the caller-supplied options, when supplied. -/
def givenPath : OptionsArg → Option String
  | .str s => some s
  | .obj o => o.path

/-- The rel field of the caller-supplied options, when supplied. -/
def givenRel : OptionsArg → Option String
  | .str _ => none
  | .obj o => o.rel

/-- The type field of the caller-supplied options, when supplied. -/
def givenType : OptionsArg → Option String
  | .str _ => none
  | .obj o => o.type

/-- One optional attribute of the built link tag: emitted only when its
value is truthy, mirroring the two if statements guarding the type and
sizes fragments. -/
def attrIf (n : String) (v : Option String) : List (String × String) :=
  if truthy v then [(n, v.getD (""))] else []

/-- The string injectFavicon concatenates for the link tag. -/
def linkTagString (o : FaviconOptions) : String :=
  let s := "<link rel=\"" ++ o.rel ++ "\" href=\"" ++ o.path ++ "\""
  let s := if truthy o.type then s ++ " type=\"" ++ o.type.getD ("") ++ "\"" else s
  let s := if truthy o.sizes then s ++ " sizes=\"" ++ o.sizes.getD ("") ++ "\"" else s
  s ++ ">"

/-- The element the head-append operation creates from the built tag
string: rel then href always, then type and sizes each only when
truthy, in that order. -/
def linkElem (o : FaviconOptions) : Element :=
  { tag := "link"
    attrs := [("rel", o.rel), ("href", o.path)] ++ attrIf ("type") o.type ++ attrIf ("sizes") o.sizes }

/-- The result of fs.stat as this program observes it. -/
structure FStat where
  isFile : Bool
  deriving Repr, DecidableEq

/-- One file as injectFavicon observes it: its basename, the outcome of
stating it, the outcome of reading and parsing it (cheerio.load never
throws, so a read failure is the only fallible step there), and whether
a write to it would succeed.  A failed write leaves the previous
content in place. -/
structure SingleFile where
  name : String
  statRes : FsRes FStat
  readRes : FsRes Doc
  writeOk : Bool
  deriving Repr, DecidableEq

/-- injectFavicon from src/lib/injector.js.  Returns the boolean result
together with the file as it is on disk afterwards.  Every throwing
step sits inside the function's try/catch, which converts the error
into a false return. -/
def injectFavicon (f : SingleFile) (arg : OptionsArg) : Bool × SingleFile :=
  match f.statRes with
  | .err => (false, f)
  | .ok st =>
    if !st.isFile then (false, f)
    else if strStartsWith f.name ("._") then (false, f)
    else
      let opts := normalizeOptions arg
      match f.readRes with
      | .err => (false, f)
      | .ok d =>
        if hasFavicon d then (false, f)
        else
          match d.head with
          | none => (false, f)
          | some hc =>
            let newDoc : Doc := { d with head := some (hc ++ [linkElem opts]) }
            if f.writeOk then (true, { f with readRes := .ok newDoc })
            else (false, f)

/-- The four counters injectDir accumulates. -/
structure Stats where
  total : Nat
  injected : Nat
  skipped : Nat
  failed : Nat
  deriving Repr, DecidableEq

/-- The zero-initialized stats record. -/
def Stats.zero : Stats :=
  { total := 0, injected := 0, skipped := 0, failed := 0 }

/-- Field-wise addition, the fold of a subdirectory's stats into the
caller's accumulator. -/
def Stats.add (a b : Stats) : Stats :=
  { total := a.total + b.total
    injected := a.injected + b.injected
    skipped := a.skipped + b.skipped
    failed := a.failed + b.failed }

mutual
/-- One entry of the modelled filesystem tree.  A file carries the
outcome of reading it and whether writing it would succeed; statErr is
an entry on which fs.stat throws (the throw aborts the directory scan
at that level); a directory carries whether fs.readdir on it succeeds,
and its entries in listing order. -/
inductive FSNode where
  | file (content : FsRes Doc) (writeOk : Bool)
  | statErr
  | dir (readOk : Bool) (entries : FSEntries)
  deriving Repr, DecidableEq

/-- A directory listing: named entries in the order the filesystem
yields them. -/
inductive FSEntries where
  | nil
  | cons (name : String) (node : FSNode) (rest : FSEntries)
  deriving Repr, DecidableEq
end

mutual
/-- injectDir from src/lib/injector.js on an existing path: a file or
unreadable directory makes fs.readdir throw, caught by the catch block
that returns the stats accumulated so far (still zero). -/
def injectDirNode (arg : OptionsArg) : FSNode → Stats
  | .file _ _ => Stats.zero
  | .statErr => Stats.zero
  | .dir readOk es => if readOk then runEntries arg es Stats.zero else Stats.zero

/-- The entry loop of injectDir.  Skips names with the metadata-sidecar
prefix before any stat; a stat throw aborts the loop and the level's
catch returns the accumulated stats; a subdirectory is processed by the
recursive injectDir call (inlined here: the path exists, so only the
readdir outcome matters) and folded in; an html-named file is counted,
injected, and on a false result reclassified by re-reading it (a throw
of that read again aborts the level); other files are ignored. -/
def runEntries (arg : OptionsArg) : FSEntries → Stats → Stats
  | .nil, acc => acc
  | .cons nm nd rest, acc =>
    if strStartsWith nm ("._") then runEntries arg rest acc
    else
      match nd with
      | .statErr => acc
      | .dir ro es =>
        let sub := if ro then runEntries arg es Stats.zero else Stats.zero
        runEntries arg rest (acc.add sub)
      | .file content writeOk =>
        if strEndsWith (strToLower nm) (".html") then
          let acc1 := { acc with total := acc.total + 1 }
          let f : SingleFile := { name := nm, statRes := .ok { isFile := true }, readRes := content, writeOk := writeOk }
          let r := injectFavicon f arg
          if r.1 then runEntries arg rest { acc1 with injected := acc1.injected + 1 }
          else
            match r.2.readRes with
            | .err => acc1
            | .ok d =>
              if hasFavicon d then runEntries arg rest { acc1 with skipped := acc1.skipped + 1 }
              else runEntries arg rest { acc1 with failed := acc1.failed + 1 }
        else runEntries arg rest acc
end

/-- injectDir at the top level: fs.pathExists on a missing path makes
the function throw and catch internally, returning zero stats. -/
def injectDir (arg : OptionsArg) : Option FSNode → Stats
  | none => Stats.zero
  | some n => injectDirNode arg n

mutual
/-- A node on which a scan performs no erroring operation: files stat
and read and write cleanly and parse to a document with a head element
(the parser synthesizes one for every input it loads), directories
list cleanly, and no entry makes stat throw. -/
def cleanNode : FSNode → Bool
  | .file (.ok d) w => w && d.head.isSome
  | .file .err _ => false
  | .statErr => false
  | .dir ro es => ro && cleanEntries es

/-- All entries of a listing are clean. -/
def cleanEntries : FSEntries → Bool
  | .nil => true
  | .cons _ nd rest => cleanNode nd && cleanEntries rest
end

mutual
/-- The number of html-named files the walker reaches in a node:
metadata-sidecar names are excluded at every level and their subtrees
are not descended into. -/
def countHtmlNode : FSNode → Nat
  | .file _ _ => 0
  | .statErr => 0
  | .dir _ es => countHtml es

/-- The number of html-named, non-sidecar files in a listing and its
subtrees. -/
def countHtml : FSEntries → Nat
  | .nil => 0
  | .cons nm nd rest =>
    (if strStartsWith nm ("._") then 0
     else match nd with
       | .dir _ es => countHtml es
       | .file _ _ => if strEndsWith (strToLower nm) (".html") then 1 else 0
       | .statErr => 0) + countHtml rest
end

mutual
/-- Among the files countHtmlNode counts, the number whose parsed
content already carries a favicon link. -/
def countFavNode : FSNode → Nat
  | .file _ _ => 0
  | .statErr => 0
  | .dir _ es => countFav es

/-- Among the files countHtml counts, the number whose parsed content
already carries a favicon link. -/
def countFav : FSEntries → Nat
  | .nil => 0
  | .cons nm nd rest =>
    (if strStartsWith nm ("._") then 0
     else match nd with
       | .dir _ es => countFav es
       | .file (.ok d) _ => if strEndsWith (strToLower nm) (".html") && hasFavicon d then 1 else 0
       | .file .err _ => 0
       | .statErr => 0) + countFav rest
end

mutual
/-- The number of files with an html name anywhere in a node, sidecar
names included: the literal count of files whose names end in .html. -/
def countHtmlAllNode : FSNode → Nat
  | .file _ _ => 0
  | .statErr => 0
  | .dir _ es => countHtmlAll es

/-- The number of files with an html name anywhere in a listing,
sidecar names included. -/
def countHtmlAll : FSEntries → Nat
  | .nil => 0
  | .cons nm nd rest =>
    (match nd with
     | .dir _ es => countHtmlAll es
     | .file _ _ => if strEndsWith (strToLower nm) (".html") then 1 else 0
     | .statErr => 0) + countHtmlAll rest
end

mutual
/-- No counted file's reclassification re-read can throw: every
html-named, non-sidecar file in the tree has readable content. -/
def classifiableNode : FSNode → Bool
  | .file _ _ => true
  | .statErr => true
  | .dir _ es => classifiable es

/-- classifiableNode over a listing. -/
def classifiable : FSEntries → Bool
  | .nil => true
  | .cons nm nd rest =>
    (if strStartsWith nm ("._") then true
     else match nd with
       | .dir _ es => classifiable es
       | .file .err _ => !(strEndsWith (strToLower nm) (".html"))
       | .file (.ok _) _ => true
       | .statErr => true) && classifiable rest
end

/-- A link element carrying a favicon rel, for concrete instances. -/
def iconLinkEl : Element :=
  { tag := "link", attrs := [("rel", "icon"), ("href", "/e.ico")] }

/-- A parsed document with a head holding a title and no favicon. -/
def docNoFav : Doc :=
  { head := some [{ tag := "title", attrs := [] }], otherLinks := [] }

/-- A parsed document whose head already holds a favicon link. -/
def docWithFav : Doc :=
  { head := some [iconLinkEl], otherLinks := [] }

/-- A cleanly readable, writable html file without a favicon. -/
def fileNoFav : SingleFile :=
  { name := "a.html", statRes := .ok { isFile := true }, readRes := .ok docNoFav, writeOk := true }

/-- An options object whose rel is none of the three recognized favicon
rels. -/
def argRelX : OptionsArg :=
  .obj { path := none, rel := some "x", type := none, sizes := none }

/-- A directory holding a single sidecar-named html file with clean
content. -/
def sidecarTree : FSNode :=
  .dir true (.cons "._a.html" (.file (.ok docNoFav) true) .nil)

/-- A directory holding one html file without a favicon and one with
one, both clean. -/
def sampleTree : FSNode :=
  .dir true (.cons "a.html" (.file (.ok docNoFav) true)
    (.cons "b.html" (.file (.ok docWithFav) true) .nil))

/-- classifiableNode lifted to the optional top-level argument. -/
def classifiableOpt : Option FSNode → Bool
  | none => true
  | some n => classifiableNode n

/-- The extension-to-MIME table as the specification states it, keyed
by the already-lowercased extension. -/
def mimeOfExt : String → Option String
  | ".ico" => some ("image/x-icon")
  | ".png" => some ("image/png")
  | ".svg" => some ("image/svg+xml")
  | ".jpg" => some ("image/jpeg")
  | ".jpeg" => some ("image/jpeg")
  | _ => none

theorem relMatches_iff (ro : Option String) :
    relMatches ro = true ↔
      (ro = some "icon" ∨ ro = some "shortcut icon" ∨ ro = some "apple-touch-icon") := by
  cases ro with
  | none => simp [relMatches]
  | some r =>
    simp only [relMatches, Bool.and_eq_true, Bool.or_eq_true, beq_iff_eq,
      Bool.not_eq_true', beq_eq_false_iff_ne, Option.some.injEq]
    constructor
    · rintro ⟨_, h⟩; tauto
    · rintro (rfl | rfl | rfl) <;> exact ⟨by decide, by tauto⟩

theorem hasFaviconLinks_iff (L : List Element) :
    hasFaviconLinks L = true ↔ ∃ e ∈ L, relMatches (getAttr e ("rel")) = true := by
  induction L with
  | nil => simp [hasFaviconLinks]
  | cons l rest ih =>
    by_cases h : relMatches (getAttr l ("rel")) = true
    · simp [hasFaviconLinks, h]
    · rw [hasFaviconLinks, if_neg h, ih]
      simp only [List.mem_cons]
      constructor
      · rintro ⟨e, he, hm⟩; exact ⟨e, Or.inr he, hm⟩
      · rintro ⟨e, rfl | he, hm⟩
        · exact absurd hm h
        · exact ⟨e, he, hm⟩

/-- Claim C6: the presence check holds for a parsed document iff some
link element's rel attribute equals exactly one of icon, shortcut icon
or apple-touch-icon, and matching stops at the first hit: a matching
head of the list decides the outcome whatever follows it. -/
theorem hasFavicon_iff_rel_match (d : Doc) :
    (hasFavicon d = true ↔ ∃ e ∈ docLinks d,
      (getAttr e ("rel") = some "icon" ∨ getAttr e ("rel") = some "shortcut icon" ∨
        getAttr e ("rel") = some "apple-touch-icon")) ∧
    (∀ e rest,
      (getAttr e ("rel") = some "icon" ∨ getAttr e ("rel") = some "shortcut icon" ∨
        getAttr e ("rel") = some "apple-touch-icon") →
      hasFaviconLinks (e :: rest) = true) := by
  constructor
  · rw [hasFavicon, hasFaviconLinks_iff]
    constructor
    · rintro ⟨e, he, hm⟩; exact ⟨e, he, (relMatches_iff _).mp hm⟩
    · rintro ⟨e, he, hm⟩; exact ⟨e, he, (relMatches_iff _).mpr hm⟩
  · intro e rest h
    rw [hasFaviconLinks, if_pos ((relMatches_iff _).mpr h)]

/-- Witness for claim C6 at a concrete link element. -/
theorem hasFavicon_iff_rel_match_witness :
    hasFaviconLinks (iconLinkEl :: []) = true :=
  (hasFavicon_iff_rel_match docWithFav).2 iconLinkEl [] (Or.inl (by decide))

theorem autoDetect_path (o : FaviconOptions) : (autoDetect o).path = o.path := by
  unfold autoDetect
  split
  · rfl
  · split <;> rfl

theorem autoDetect_rel (o : FaviconOptions) : (autoDetect o).rel = o.rel := by
  unfold autoDetect
  split
  · rfl
  · split <;> rfl

theorem autoDetect_sizes (o : FaviconOptions) : (autoDetect o).sizes = o.sizes := by
  unfold autoDetect
  split
  · rfl
  · split <;> rfl

theorem applyDefaults_type (o : PartialOptions) : (applyDefaults o).type = o.type := rfl

theorem toPartial_type (arg : OptionsArg) : (toPartial arg).type = givenType arg := by
  cases arg <;> rfl

theorem autoType_eq_mime (p : String) :
    autoType p = mimeOfExt (strToLower (extname p)) := by
  unfold autoType mimeOfExt
  rfl

theorem autoDetect_type_eq (o : FaviconOptions) (h : truthy o.type = false) :
    (autoDetect o).type =
      match mimeOfExt (strToLower (extname o.path)) with
      | some t => some t
      | none => o.type := by
  unfold autoDetect
  rw [h, ← autoType_eq_mime]
  cases hm : autoType o.path <;> simp

theorem mimeOfExt_ne_empty (s t : String) (h : mimeOfExt s = some t) : t ≠ "" := by
  unfold mimeOfExt at h
  split at h <;> simp_all <;> intro hc <;> simp [hc] at h

theorem getAttr_linkElem_rel (o : FaviconOptions) :
    getAttr (linkElem o) ("rel") = some o.rel := by
  unfold getAttr linkElem attrIf
  cases ht : truthy o.type <;> cases hs : truthy o.sizes <;> simp [List.find?]

theorem getAttr_linkElem_type (o : FaviconOptions) :
    getAttr (linkElem o) ("type") = if truthy o.type then some (o.type.getD ("")) else none := by
  unfold getAttr linkElem attrIf
  cases ht : truthy o.type <;> cases hs : truthy o.sizes <;> simp [List.find?]

theorem normalizeOptions_type_eq (arg : OptionsArg) (h : truthy (givenType arg) = false) :
    (normalizeOptions arg).type =
      match mimeOfExt (strToLower (extname (normalizeOptions arg).path)) with
      | some t => some t
      | none => givenType arg := by
  have ht : (applyDefaults (toPartial arg)).type = givenType arg := by
    rw [applyDefaults_type, toPartial_type]
  unfold normalizeOptions
  rw [autoDetect_path, autoDetect_type_eq _ (by rw [ht, h]), ht]

/-- Claim C7: when the caller supplies no truthy type, the type
attribute the built tag emits is exactly the MIME table applied to the
lowercased extension of the configured path, and is omitted entirely
when the table has no entry for it. -/
theorem injectFavicon_type_detection (arg : OptionsArg) (h : truthy (givenType arg) = false) :
    getAttr (linkElem (normalizeOptions arg)) ("type")
      = mimeOfExt (strToLower (extname (normalizeOptions arg).path)) := by
  rw [getAttr_linkElem_type, normalizeOptions_type_eq arg h]
  cases hm : mimeOfExt (strToLower (extname (normalizeOptions arg).path)) with
  | some t =>
    have ht : truthy (some t) = true := by
      have := mimeOfExt_ne_empty _ _ hm
      simp [truthy, this]
    simp [ht]
  | none =>
    rw [if_neg]
    rw [h]
    simp

/-- Witness for claim C7: an uppercase ico extension maps to the x-icon
MIME type. -/
theorem injectFavicon_type_detection_witness :
    getAttr (linkElem (normalizeOptions (OptionsArg.str "/favicon.ICO"))) ("type")
      = mimeOfExt (strToLower (extname (normalizeOptions (OptionsArg.str "/favicon.ICO")).path)) :=
  injectFavicon_type_detection (OptionsArg.str "/favicon.ICO") (by decide)

/-- Counterexample to claim C8: a caller-supplied empty string is a
value injectFavicon accepts, and it survives normalization, so the
normalized path is empty rather than falling back to the default. -/
theorem normalizeOptions_empty_path_cex :
    (normalizeOptions (OptionsArg.str "")).path = "" := rfl

/-- Claim C8 as amended: the normalized path is the supplied path when
one is supplied and the default otherwise, likewise rel with its
default, so both are non-empty whenever the supplied value, if any, is
non-empty; an explicitly supplied empty string is kept verbatim. -/
theorem normalizeOptions_path_rel (arg : OptionsArg) :
    (normalizeOptions arg).path = (givenPath arg).getD ("/favicon.ico") ∧
    (normalizeOptions arg).rel = (givenRel arg).getD ("icon") ∧
    (givenPath arg ≠ some "" → (normalizeOptions arg).path ≠ "") ∧
    (givenRel arg ≠ some "" → (normalizeOptions arg).rel ≠ "") := by
  have hp : (normalizeOptions arg).path = (givenPath arg).getD ("/favicon.ico") := by
    unfold normalizeOptions
    rw [autoDetect_path]
    cases arg <;> rfl
  have hr : (normalizeOptions arg).rel = (givenRel arg).getD ("icon") := by
    unfold normalizeOptions
    rw [autoDetect_rel]
    cases arg <;> rfl
  refine ⟨hp, hr, ?_, ?_⟩
  · intro hne
    rw [hp]
    cases hg : givenPath arg with
    | none => decide
    | some s =>
      rw [hg] at hne
      simpa using fun hc => hne (by rw [hc])
  · intro hne
    rw [hr]
    cases hg : givenRel arg with
    | none => decide
    | some s =>
      rw [hg] at hne
      simpa using fun hc => hne (by rw [hc])

/-- Witness for the amended claim C8 at a concrete non-empty supplied
path. -/
theorem normalizeOptions_path_rel_witness :
    (normalizeOptions (OptionsArg.str "/x.png")).path ≠ "" ∧
    (normalizeOptions (OptionsArg.str "/x.png")).rel ≠ "" :=
  ⟨(normalizeOptions_path_rel (OptionsArg.str "/x.png")).2.2.1 (by decide),
   (normalizeOptions_path_rel (OptionsArg.str "/x.png")).2.2.2 (by decide)⟩

theorem injectFavicon_skip (f : SingleFile) (arg : OptionsArg) (st : FStat) (d : Doc)
    (h1 : f.statRes = .ok st) (h2 : st.isFile = true)
    (h3 : strStartsWith f.name ("._") = false)
    (h4 : f.readRes = .ok d) (h5 : hasFavicon d = true) :
    injectFavicon f arg = (false, f) := by
  unfold injectFavicon
  rw [h1]
  simp [h2, h3, h4, h5]

theorem injectFavicon_inject (f : SingleFile) (arg : OptionsArg) (st : FStat) (d : Doc)
    (hc : List Element)
    (h1 : f.statRes = .ok st) (h2 : st.isFile = true)
    (h3 : strStartsWith f.name ("._") = false)
    (h4 : f.readRes = .ok d) (h5 : hasFavicon d = false) (h6 : d.head = some hc)
    (h7 : f.writeOk = true) :
    injectFavicon f arg =
      (true, { f with readRes := .ok { d with head := some (hc ++ [linkElem (normalizeOptions arg)]) } }) := by
  unfold injectFavicon
  rw [h1]
  simp [h2, h3, h4, h5, h6, h7]

/-- Claim C2: on a document with a head and no favicon link, under
clean stat, read and write, injectFavicon returns true and appends
exactly one link element as the last child of the head — rel then href
always first in that order, then type and sizes each only when
present, in that order — leaving the existing head children and the
rest of the document unchanged. -/
theorem injectFavicon_appends_link (f : SingleFile) (arg : OptionsArg) (st : FStat) (d : Doc)
    (hc : List Element)
    (h1 : f.statRes = .ok st) (h2 : st.isFile = true)
    (h3 : strStartsWith f.name ("._") = false)
    (h4 : f.readRes = .ok d) (h5 : hasFavicon d = false) (h6 : d.head = some hc)
    (h7 : f.writeOk = true) :
    (injectFavicon f arg).1 = true ∧
    (injectFavicon f arg).2.readRes = FsRes.ok
      { head := some (hc ++ [Element.mk ("link")
          ([("rel", (normalizeOptions arg).rel), ("href", (normalizeOptions arg).path)]
            ++ (if truthy (normalizeOptions arg).type then
                  [(("type" : String), ((normalizeOptions arg).type).getD (""))] else [])
            ++ (if truthy (normalizeOptions arg).sizes then
                  [(("sizes" : String), ((normalizeOptions arg).sizes).getD (""))] else []))]),
        otherLinks := d.otherLinks } := by
  rw [injectFavicon_inject f arg st d hc h1 h2 h3 h4 h5 h6 h7]
  refine ⟨rfl, ?_⟩
  simp only [linkElem, attrIf]

/-- Witness for claim C2 on a concrete clean file. -/
theorem injectFavicon_appends_link_witness :
    (injectFavicon fileNoFav (OptionsArg.str "/favicon.ico")).1 = true ∧
    (injectFavicon fileNoFav (OptionsArg.str "/favicon.ico")).2.readRes = FsRes.ok
      { head := some ([Element.mk ("title") []] ++ [Element.mk ("link")
          ([("rel", (normalizeOptions (OptionsArg.str "/favicon.ico")).rel),
            ("href", (normalizeOptions (OptionsArg.str "/favicon.ico")).path)]
            ++ (if truthy (normalizeOptions (OptionsArg.str "/favicon.ico")).type then
                  [(("type" : String), ((normalizeOptions (OptionsArg.str "/favicon.ico")).type).getD (""))] else [])
            ++ (if truthy (normalizeOptions (OptionsArg.str "/favicon.ico")).sizes then
                  [(("sizes" : String), ((normalizeOptions (OptionsArg.str "/favicon.ico")).sizes).getD (""))] else []))]),
        otherLinks := [] } :=
  injectFavicon_appends_link fileNoFav (OptionsArg.str "/favicon.ico")
    { isFile := true } docNoFav [{ tag := "title", attrs := [] }]
    (by decide) (by decide) (by decide) (by decide) (by decide) (by decide) (by decide)

theorem injectFavicon_total_aux (f : SingleFile) (arg : OptionsArg) :
    ((f.statRes = FsRes.err ∨ f.readRes = FsRes.err ∨ f.writeOk = false) →
      (injectFavicon f arg).1 = false) ∧
    ((injectFavicon f arg).1 = false → (injectFavicon f arg).2 = f) := by
  unfold injectFavicon
  rcases f with ⟨nm, st, rd, w⟩
  cases st with
  | err => exact ⟨fun _ => rfl, fun _ => rfl⟩
  | ok s =>
    cases rd with
    | err =>
      by_cases hf : s.isFile = true
      · by_cases hn : strStartsWith nm ("._") = true
        · simp [hf, hn]
        · simp [hf, hn]
      · simp [Bool.not_eq_true] at hf
        simp [hf]
    | ok d =>
      by_cases hf : s.isFile = true
      · by_cases hn : strStartsWith nm ("._") = true
        · simp [hf, hn]
        · by_cases hfav : hasFavicon d = true
          · simp [hf, hn, hfav]
          · simp only [Bool.not_eq_true] at hfav hn
            cases hh : d.head with
            | none => simp [hf, hn, hfav, hh]
            | some hc =>
              cases hw : w with
              | false => simp [hf, hn, hfav, hh, hw]
              | true => simp [hf, hn, hfav, hh, hw]
      · simp [Bool.not_eq_true] at hf
        simp [hf]

/-- Claim C3: injectFavicon is a total function of its modelled inputs
(it never propagates an error); every stat, read or write failure
yields a false result, and a false result always leaves the file
exactly as it was — no write is observed. -/
theorem injectFavicon_error_to_false (f : SingleFile) (arg : OptionsArg) :
    ((f.statRes = FsRes.err ∨ f.readRes = FsRes.err ∨ f.writeOk = false) →
      (injectFavicon f arg).1 = false) ∧
    ((injectFavicon f arg).1 = false → (injectFavicon f arg).2 = f) :=
  injectFavicon_total_aux f arg

/-- Witness for claim C3 at a file whose stat fails. -/
theorem injectFavicon_error_to_false_witness :
    (injectFavicon { name := "a.html", statRes := .err, readRes := .ok docNoFav, writeOk := true }
      (OptionsArg.str "/favicon.ico")).1 = false :=
  (injectFavicon_error_to_false
    { name := "a.html", statRes := .err, readRes := .ok docNoFav, writeOk := true }
    (OptionsArg.str "/favicon.ico")).1 (Or.inl rfl)

/-- Counterexample to claim C5: with options whose rel is not one of
the three recognized favicon rels, the second invocation does not find
the inserted tag and injects again, returning true rather than false. -/
theorem injectFavicon_twice_cex :
    (injectFavicon fileNoFav argRelX).1 = true ∧
    (injectFavicon (injectFavicon fileNoFav argRelX).2 argRelX).1 = true := by decide

/-- Claim C5 as amended: on a clean file whose document has a head and
no favicon link, two successive invocations with the same options
yield true then false, provided the options' rel is one of the three
recognized favicon rels (otherwise the second call injects again). -/
theorem injectFavicon_twice (f : SingleFile) (arg : OptionsArg) (st : FStat) (d : Doc)
    (hc : List Element)
    (h1 : f.statRes = .ok st) (h2 : st.isFile = true)
    (h3 : strStartsWith f.name ("._") = false)
    (h4 : f.readRes = .ok d) (h5 : hasFavicon d = false) (h6 : d.head = some hc)
    (h7 : f.writeOk = true)
    (h8 : (normalizeOptions arg).rel = "icon" ∨ (normalizeOptions arg).rel = "shortcut icon" ∨
          (normalizeOptions arg).rel = "apple-touch-icon") :
    (injectFavicon f arg).1 = true ∧
    (injectFavicon (injectFavicon f arg).2 arg).1 = false := by
  have hinj := injectFavicon_inject f arg st d hc h1 h2 h3 h4 h5 h6 h7
  refine ⟨by rw [hinj], ?_⟩
  have hfav : hasFavicon { d with head := some (hc ++ [linkElem (normalizeOptions arg)]) } = true := by
    rw [hasFavicon, hasFaviconLinks_iff]
    refine ⟨linkElem (normalizeOptions arg), ?_, ?_⟩
    · unfold docLinks
      simp only [List.mem_append]
      left
      simp only [List.filter_append, List.mem_append]
      right
      simp [linkElem]
    · rw [getAttr_linkElem_rel, relMatches_iff]
      simpa using h8
  rw [hinj]
  show (injectFavicon
    { f with readRes := FsRes.ok { d with head := some (hc ++ [linkElem (normalizeOptions arg)]) } } arg).1 = false
  rw [injectFavicon_skip
    { f with readRes := FsRes.ok { d with head := some (hc ++ [linkElem (normalizeOptions arg)]) } }
    arg st _ h1 h2 h3 rfl hfav]

/-- Witness for the amended claim C5 on a concrete clean file with the
default options. -/
theorem injectFavicon_twice_witness :
    (injectFavicon fileNoFav (OptionsArg.str "/favicon.ico")).1 = true ∧
    (injectFavicon (injectFavicon fileNoFav (OptionsArg.str "/favicon.ico")).2
      (OptionsArg.str "/favicon.ico")).1 = false :=
  injectFavicon_twice fileNoFav (OptionsArg.str "/favicon.ico")
    { isFile := true } docNoFav [{ tag := "title", attrs := [] }]
    (by decide) (by decide) (by decide) (by decide) (by decide) (by decide) (by decide)
    (Or.inl (by decide))

/-- Claim C9: an entry whose name begins with the sidecar prefix is
skipped before anything else happens to it — the scan of the remaining
entries proceeds as if the entry were absent, whatever the entry is
(even one whose stat would throw, or a whole subtree of html files),
so it is neither stated, nor recursed into, nor counted. -/
theorem runEntries_sidecar_skip (arg : OptionsArg) (nm : String) (nd : FSNode)
    (rest : FSEntries) (acc : Stats) (h : strStartsWith nm ("._") = true) :
    runEntries arg (FSEntries.cons nm nd rest) acc = runEntries arg rest acc := by
  rw [runEntries.eq_def]
  simp [h]

/-- Witness for claim C9: a sidecar-named entry whose stat would throw
is dropped without aborting the scan. -/
theorem runEntries_sidecar_skip_witness :
    runEntries (OptionsArg.str "/favicon.ico")
      (FSEntries.cons "._evil.html" FSNode.statErr FSEntries.nil) Stats.zero
      = runEntries (OptionsArg.str "/favicon.ico") FSEntries.nil Stats.zero :=
  runEntries_sidecar_skip (OptionsArg.str "/favicon.ico") "._evil.html" FSNode.statErr
    FSEntries.nil Stats.zero (by decide)

theorem Stats.add_mk (a : Stats) (t i s k : Nat) :
    a.add { total := t, injected := i, skipped := s, failed := k } =
      { total := a.total + t, injected := a.injected + i, skipped := a.skipped + s,
        failed := a.failed + k } := rfl

theorem runEntries_nil (arg : OptionsArg) (acc : Stats) :
    runEntries arg FSEntries.nil acc = acc := by
  rw [runEntries.eq_def]

theorem runEntries_skip_aux (arg : OptionsArg) (nm : String) (nd : FSNode)
    (rest : FSEntries) (acc : Stats) (h : strStartsWith nm ("._") = true) :
    runEntries arg (FSEntries.cons nm nd rest) acc = runEntries arg rest acc := by
  rw [runEntries.eq_def]
  simp [h]

theorem runEntries_statErr_abort (arg : OptionsArg) (nm : String)
    (rest : FSEntries) (acc : Stats) (h : strStartsWith nm ("._") = false) :
    runEntries arg (FSEntries.cons nm FSNode.statErr rest) acc = acc := by
  rw [runEntries.eq_def]
  simp [h]

theorem runEntries_subdir (arg : OptionsArg) (nm : String) (ro : Bool) (es2 : FSEntries)
    (rest : FSEntries) (acc : Stats) (h : strStartsWith nm ("._") = false) :
    runEntries arg (FSEntries.cons nm (FSNode.dir ro es2) rest) acc =
      runEntries arg rest (acc.add (if ro then runEntries arg es2 Stats.zero else Stats.zero)) := by
  rw [runEntries.eq_def]
  simp [h]

theorem runEntries_nonhtml (arg : OptionsArg) (nm : String) (c : FsRes Doc) (w : Bool)
    (rest : FSEntries) (acc : Stats) (h1 : strStartsWith nm ("._") = false)
    (h2 : strEndsWith (strToLower nm) (".html") = false) :
    runEntries arg (FSEntries.cons nm (FSNode.file c w) rest) acc = runEntries arg rest acc := by
  rw [runEntries.eq_def]
  simp [h1, h2]

theorem runEntries_html_true (arg : OptionsArg) (nm : String) (c : FsRes Doc) (w : Bool)
    (rest : FSEntries) (acc : Stats) (h1 : strStartsWith nm ("._") = false)
    (h2 : strEndsWith (strToLower nm) (".html") = true)
    (h3 : (injectFavicon { name := nm, statRes := .ok { isFile := true }, readRes := c, writeOk := w } arg).1 = true) :
    runEntries arg (FSEntries.cons nm (FSNode.file c w) rest) acc =
      runEntries arg rest { acc with total := acc.total + 1, injected := acc.injected + 1 } := by
  rw [runEntries.eq_def]
  simp [h1, h2, h3]

theorem runEntries_html_reclassify (arg : OptionsArg) (nm : String) (c : FsRes Doc) (w : Bool)
    (rest : FSEntries) (acc : Stats) (d : Doc) (h1 : strStartsWith nm ("._") = false)
    (h2 : strEndsWith (strToLower nm) (".html") = true)
    (h3 : (injectFavicon { name := nm, statRes := .ok { isFile := true }, readRes := c, writeOk := w } arg).1 = false)
    (h4 : (injectFavicon { name := nm, statRes := .ok { isFile := true }, readRes := c, writeOk := w } arg).2.readRes = .ok d) :
    runEntries arg (FSEntries.cons nm (FSNode.file c w) rest) acc =
      (if hasFavicon d then
        runEntries arg rest { acc with total := acc.total + 1, skipped := acc.skipped + 1 }
       else
        runEntries arg rest { acc with total := acc.total + 1, failed := acc.failed + 1 }) := by
  rw [runEntries.eq_def]
  simp only [h1, Bool.false_eq_true, if_false, h2, if_true, h3]
  rw [h4]

theorem runEntries_html_readErr (arg : OptionsArg) (nm : String) (c : FsRes Doc) (w : Bool)
    (rest : FSEntries) (acc : Stats) (h1 : strStartsWith nm ("._") = false)
    (h2 : strEndsWith (strToLower nm) (".html") = true)
    (h3 : (injectFavicon { name := nm, statRes := .ok { isFile := true }, readRes := c, writeOk := w } arg).1 = false)
    (h4 : (injectFavicon { name := nm, statRes := .ok { isFile := true }, readRes := c, writeOk := w } arg).2.readRes = .err) :
    runEntries arg (FSEntries.cons nm (FSNode.file c w) rest) acc =
      { acc with total := acc.total + 1 } := by
  rw [runEntries.eq_def]
  simp only [h1, Bool.false_eq_true, if_false, h2, if_true, h3]
  rw [h4]

/-- Claim C4: injectDir is a total function of its modelled inputs (it
never propagates an error): a non-existent directory yields all-zero
stats; an entry whose stat throws ends the scan of its level, which
returns exactly the stats accumulated up to that entry; a directory
whose listing fails yields the stats accumulated there so far, namely
zero; and an unreadable counted html file, whose reclassifying re-read
throws after the counter was already incremented, likewise ends the
level, which returns the accumulated stats with that file in total. -/
theorem injectDir_error_handling (arg : OptionsArg) :
    injectDir arg none = Stats.zero ∧
    (∀ nm rest acc, strStartsWith nm ("._") = false →
      runEntries arg (FSEntries.cons nm FSNode.statErr rest) acc = acc) ∧
    (∀ es, injectDirNode arg (FSNode.dir false es) = Stats.zero) ∧
    (∀ nm w rest acc, strStartsWith nm ("._") = false →
      strEndsWith (strToLower nm) (".html") = true →
      runEntries arg (FSEntries.cons nm (FSNode.file FsRes.err w) rest) acc =
        { acc with total := acc.total + 1 }) := by
  refine ⟨rfl, ?_, ?_, ?_⟩
  · intro nm rest acc h
    rw [runEntries.eq_def]
    simp [h]
  · intro es
    rw [injectDirNode.eq_def]
    simp
  · intro nm w rest acc h1 h2
    have hf1 : (injectFavicon (SingleFile.mk nm (.ok (FStat.mk true)) FsRes.err w) arg).1 = false :=
      (injectFavicon_total_aux (SingleFile.mk nm (.ok (FStat.mk true)) FsRes.err w) arg).1
        (Or.inr (Or.inl rfl))
    have hf2 : (injectFavicon (SingleFile.mk nm (.ok (FStat.mk true)) FsRes.err w)
        arg).2.readRes = FsRes.err := by
      rw [(injectFavicon_total_aux (SingleFile.mk nm (.ok (FStat.mk true)) FsRes.err w) arg).2 hf1]
    exact runEntries_html_readErr arg nm FsRes.err w rest acc h1 h2 hf1 hf2

/-- Witness for claim C4: a stat failure on the second entry keeps the
stats the first entry produced, and an unreadable html file aborts its
level with the accumulated stats counting it in total only. -/
theorem injectDir_error_handling_witness :
    runEntries (OptionsArg.str "/favicon.ico")
      (FSEntries.cons "x" FSNode.statErr FSEntries.nil)
      { total := 3, injected := 1, skipped := 1, failed := 0 }
      = { total := 3, injected := 1, skipped := 1, failed := 0 } ∧
    runEntries (OptionsArg.str "/favicon.ico")
      (FSEntries.cons "a.html" (FSNode.file FsRes.err true) FSEntries.nil)
      { total := 3, injected := 1, skipped := 1, failed := 0 }
      = { total := 4, injected := 1, skipped := 1, failed := 0 } :=
  ⟨(injectDir_error_handling (OptionsArg.str "/favicon.ico")).2.1 "x" FSEntries.nil
    { total := 3, injected := 1, skipped := 1, failed := 0 } (by decide),
   (injectDir_error_handling (OptionsArg.str "/favicon.ico")).2.2.2 "a.html" true FSEntries.nil
    { total := 3, injected := 1, skipped := 1, failed := 0 } (by decide) (by decide)⟩

theorem countHtml_nil : countHtml FSEntries.nil = 0 := rfl

theorem countHtml_cons (nm : String) (nd : FSNode) (rest : FSEntries) :
    countHtml (FSEntries.cons nm nd rest) =
      (if strStartsWith nm ("._") then 0
       else match nd with
         | .dir _ es => countHtml es
         | .file _ _ => if strEndsWith (strToLower nm) (".html") then 1 else 0
         | .statErr => 0) + countHtml rest := by
  rw [countHtml.eq_def]

theorem countFav_nil : countFav FSEntries.nil = 0 := rfl

theorem countFav_cons (nm : String) (nd : FSNode) (rest : FSEntries) :
    countFav (FSEntries.cons nm nd rest) =
      (if strStartsWith nm ("._") then 0
       else match nd with
         | .dir _ es => countFav es
         | .file (.ok d) _ => if strEndsWith (strToLower nm) (".html") && hasFavicon d then 1 else 0
         | .file .err _ => 0
         | .statErr => 0) + countFav rest := by
  rw [countFav.eq_def]

theorem cleanEntries_cons (nm : String) (nd : FSNode) (rest : FSEntries) :
    cleanEntries (FSEntries.cons nm nd rest) = (cleanNode nd && cleanEntries rest) := by
  rw [cleanEntries.eq_def]

theorem cleanNode_dir (ro : Bool) (es : FSEntries) :
    cleanNode (FSNode.dir ro es) = (ro && cleanEntries es) := by
  rw [cleanNode.eq_def]

theorem cleanNode_fileOk (d : Doc) (w : Bool) :
    cleanNode (FSNode.file (.ok d) w) = (w && d.head.isSome) := by
  rw [cleanNode.eq_def]

theorem cleanNode_statErr : cleanNode FSNode.statErr = false := rfl

theorem cleanNode_fileErr (w : Bool) : cleanNode (FSNode.file .err w) = false := rfl

theorem countFav_le_countHtml : ∀ es : FSEntries, countFav es ≤ countHtml es
  | .nil => Nat.le_refl 0
  | .cons nm nd rest => by
    have ih := countFav_le_countHtml rest
    rw [countFav_cons, countHtml_cons]
    by_cases hs : strStartsWith nm ("._") = true
    · simp [hs, ih]
    · simp only [Bool.not_eq_true] at hs
      cases nd with
      | statErr => simp [hs, ih]
      | dir ro es2 =>
        have ih2 := countFav_le_countHtml es2
        simp [hs]
        omega
      | file c w =>
        cases c with
        | err =>
          simp [hs]
          split <;> omega
        | ok d =>
          by_cases hh : strEndsWith (strToLower nm) (".html") = true
          · by_cases hf : hasFavicon d = true
            · simp [hs, hh, hf]
              omega
            · simp only [Bool.not_eq_true] at hf
              simp [hs, hh, hf]
              omega
          · simp only [Bool.not_eq_true] at hh
            simp [hs, hh]
            omega

theorem runEntries_clean (arg : OptionsArg) :
    ∀ (es : FSEntries) (acc : Stats), cleanEntries es = true →
    runEntries arg es acc = acc.add
      { total := countHtml es, injected := countHtml es - countFav es,
        skipped := countFav es, failed := 0 }
  | .nil, acc, _ => by
    rw [runEntries_nil, countHtml_nil, countFav_nil]
    cases acc
    simp [Stats.add]
  | .cons nm nd rest, acc, h => by
    rw [cleanEntries_cons] at h
    simp only [Bool.and_eq_true] at h
    obtain ⟨hnd, hrest⟩ := h
    by_cases hs : strStartsWith nm ("._") = true
    · rw [runEntries_skip_aux arg nm nd rest acc hs,
        runEntries_clean arg rest acc hrest, countHtml_cons, countFav_cons]
      simp [hs]
    · simp only [Bool.not_eq_true] at hs
      cases nd with
      | statErr =>
        rw [cleanNode_statErr] at hnd
        exact absurd hnd (by simp)
      | dir ro es2 =>
        rw [cleanNode_dir] at hnd
        simp only [Bool.and_eq_true] at hnd
        obtain ⟨hro, hes2⟩ := hnd
        rw [runEntries_subdir arg nm ro es2 rest acc hs, hro]
        simp only [if_true]
        rw [runEntries_clean arg es2 Stats.zero hes2]
        rw [runEntries_clean arg rest _ hrest]
        have hle2 := countFav_le_countHtml es2
        have hler := countFav_le_countHtml rest
        rw [countHtml_cons, countFav_cons]
        cases acc
        simp [hs, Stats.zero, Stats.add_mk, Stats.mk.injEq]
        omega
      | file c w =>
        cases c with
        | err =>
          rw [cleanNode_fileErr] at hnd
          exact absurd hnd (by simp)
        | ok d =>
          rw [cleanNode_fileOk] at hnd
          simp only [Bool.and_eq_true] at hnd
          obtain ⟨hw, hhd⟩ := hnd
          obtain ⟨hc, hhc⟩ := Option.isSome_iff_exists.mp hhd
          by_cases hhtml : strEndsWith (strToLower nm) (".html") = true
          · by_cases hfav : hasFavicon d = true
            · have hskip := injectFavicon_skip
                { name := nm, statRes := .ok { isFile := true }, readRes := .ok d, writeOk := w }
                arg { isFile := true } d rfl rfl hs rfl hfav
              rw [runEntries_html_reclassify arg nm (.ok d) w rest acc d hs hhtml
                (by rw [hskip]) (by rw [hskip]), hfav]
              simp only [if_true]
              rw [runEntries_clean arg rest _ hrest]
              have hler := countFav_le_countHtml rest
              rw [countHtml_cons, countFav_cons]
              cases acc
              simp [hs, hhtml, hfav, Stats.add_mk, Stats.mk.injEq]
              omega
            · have hfav0 : hasFavicon d = false := by simpa using hfav
              have hinj := injectFavicon_inject
                { name := nm, statRes := .ok { isFile := true }, readRes := .ok d, writeOk := w }
                arg { isFile := true } d hc rfl rfl hs rfl hfav0 hhc hw
              rw [runEntries_html_true arg nm (.ok d) w rest acc hs hhtml (by rw [hinj])]
              rw [runEntries_clean arg rest _ hrest]
              have hler := countFav_le_countHtml rest
              rw [countHtml_cons, countFav_cons]
              cases acc
              simp [hs, hhtml, hfav0, Stats.add_mk, Stats.mk.injEq]
              omega
          · simp only [Bool.not_eq_true] at hhtml
            rw [runEntries_nonhtml arg nm (.ok d) w rest acc hs hhtml,
              runEntries_clean arg rest acc hrest, countHtml_cons, countFav_cons]
            simp [hs, hhtml]

/-- Counterexample to claim C1: a tree holding one clean html-named
file (no favicon, a head, no I/O or parse error anywhere) on which
injectDir nevertheless reports zero files, because the file's name
carries the metadata-sidecar prefix: the claimed stats totalN 1,
injected 1 do not hold. -/
theorem injectDir_clean_tree_cex :
    cleanNode sidecarTree = true ∧
    countHtmlAllNode sidecarTree = 1 ∧
    hasFavicon docNoFav = false ∧
    injectDir (OptionsArg.str "/favicon.ico") (some sidecarTree) = Stats.zero ∧
    injectDir (OptionsArg.str "/favicon.ico") (some sidecarTree) ≠
      { total := 1, injected := 1, skipped := 0, failed := 0 } := by
  refine ⟨by decide, by decide, by decide, ?_, ?_⟩ <;> decide

/-- Claim C1 as amended: on a directory tree with no I/O or parse
error, whose non-sidecar reachable html-named files number N, k of
which already carry a favicon per the presence check, injectDir
returns total N, injected N - k, skipped k, failed 0 — files whose
name carries the sidecar prefix, or that sit below such a directory,
are excluded from every counter. -/
theorem injectDir_clean_tree_stats (arg : OptionsArg) (es : FSEntries)
    (h : cleanEntries es = true) :
    countFav es ≤ countHtml es ∧
    injectDir arg (some (FSNode.dir true es)) =
      { total := countHtml es, injected := countHtml es - countFav es,
        skipped := countFav es, failed := 0 } := by
  refine ⟨countFav_le_countHtml es, ?_⟩
  show injectDirNode arg (FSNode.dir true es) = _
  rw [injectDirNode.eq_def]
  simp only [if_true]
  rw [runEntries_clean arg es Stats.zero h]
  simp [Stats.zero, Stats.add_mk]

/-- Witness for the amended claim C1 on a concrete clean tree with two
html files, one of which already carries a favicon. -/
theorem injectDir_clean_tree_stats_witness :
    injectDir (OptionsArg.str "/favicon.ico")
      (some sampleTree) =
      { total := countHtml (FSEntries.cons "a.html" (.file (.ok docNoFav) true)
          (FSEntries.cons "b.html" (.file (.ok docWithFav) true) FSEntries.nil)),
        injected := countHtml (FSEntries.cons "a.html" (.file (.ok docNoFav) true)
          (FSEntries.cons "b.html" (.file (.ok docWithFav) true) FSEntries.nil)) -
          countFav (FSEntries.cons "a.html" (.file (.ok docNoFav) true)
          (FSEntries.cons "b.html" (.file (.ok docWithFav) true) FSEntries.nil)),
        skipped := countFav (FSEntries.cons "a.html" (.file (.ok docNoFav) true)
          (FSEntries.cons "b.html" (.file (.ok docWithFav) true) FSEntries.nil)),
        failed := 0 } :=
  (injectDir_clean_tree_stats (OptionsArg.str "/favicon.ico")
    (FSEntries.cons "a.html" (.file (.ok docNoFav) true)
      (FSEntries.cons "b.html" (.file (.ok docWithFav) true) FSEntries.nil))
    (by decide)).2

theorem classifiable_cons (nm : String) (nd : FSNode) (rest : FSEntries) :
    classifiable (FSEntries.cons nm nd rest) =
      ((if strStartsWith nm ("._") then true
        else match nd with
          | .dir _ es => classifiable es
          | .file .err _ => !(strEndsWith (strToLower nm) (".html"))
          | .file (.ok _) _ => true
          | .statErr => true) && classifiable rest) := by
  rw [classifiable.eq_def]

theorem classifiableNode_dir (ro : Bool) (es : FSEntries) :
    classifiableNode (FSNode.dir ro es) = classifiable es := by
  rw [classifiableNode.eq_def]

theorem runEntries_le (arg : OptionsArg) :
    ∀ (es : FSEntries) (acc : Stats),
    acc.injected + acc.skipped + acc.failed ≤ acc.total →
    (runEntries arg es acc).injected + (runEntries arg es acc).skipped +
      (runEntries arg es acc).failed ≤ (runEntries arg es acc).total
  | .nil, acc, h => by rwa [runEntries_nil]
  | .cons nm nd rest, acc, h => by
    by_cases hs : strStartsWith nm ("._") = true
    · rw [runEntries_skip_aux arg nm nd rest acc hs]
      exact runEntries_le arg rest acc h
    · simp only [Bool.not_eq_true] at hs
      cases nd with
      | statErr => rwa [runEntries_statErr_abort arg nm rest acc hs]
      | dir ro es2 =>
        rw [runEntries_subdir arg nm ro es2 rest acc hs]
        apply runEntries_le arg rest
        have hsub : (if ro then runEntries arg es2 Stats.zero else Stats.zero).injected +
            (if ro then runEntries arg es2 Stats.zero else Stats.zero).skipped +
            (if ro then runEntries arg es2 Stats.zero else Stats.zero).failed ≤
            (if ro then runEntries arg es2 Stats.zero else Stats.zero).total := by
          cases hro : ro with
          | true =>
            simp only [if_true]
            exact runEntries_le arg es2 Stats.zero (by decide)
          | false => simp [Stats.zero]
        simp only [Stats.add]
        omega
      | file c w =>
        by_cases hhtml : strEndsWith (strToLower nm) (".html") = true
        · cases hr1 : (injectFavicon (SingleFile.mk nm (.ok (FStat.mk true)) c w) arg).1 with
          | true =>
            rw [runEntries_html_true arg nm c w rest acc hs hhtml hr1]
            apply runEntries_le arg rest
            simp only
            omega
          | false =>
            cases hr2 : (injectFavicon (SingleFile.mk nm (.ok (FStat.mk true)) c w) arg).2.readRes with
            | err =>
              rw [runEntries_html_readErr arg nm c w rest acc hs hhtml hr1 hr2]
              simp only
              omega
            | ok d =>
              rw [runEntries_html_reclassify arg nm c w rest acc d hs hhtml hr1 hr2]
              by_cases hfav : hasFavicon d = true
              · rw [if_pos hfav]
                apply runEntries_le arg rest
                simp only
                omega
              · rw [if_neg hfav]
                apply runEntries_le arg rest
                simp only
                omega
        · simp only [Bool.not_eq_true] at hhtml
          rw [runEntries_nonhtml arg nm c w rest acc hs hhtml]
          exact runEntries_le arg rest acc h

theorem runEntries_eq (arg : OptionsArg) :
    ∀ (es : FSEntries) (acc : Stats), classifiable es = true →
    acc.injected + acc.skipped + acc.failed = acc.total →
    (runEntries arg es acc).injected + (runEntries arg es acc).skipped +
      (runEntries arg es acc).failed = (runEntries arg es acc).total
  | .nil, acc, _, h => by rwa [runEntries_nil]
  | .cons nm nd rest, acc, hcl, h => by
    rw [classifiable_cons] at hcl
    simp only [Bool.and_eq_true] at hcl
    obtain ⟨hhd, hrest⟩ := hcl
    by_cases hs : strStartsWith nm ("._") = true
    · rw [runEntries_skip_aux arg nm nd rest acc hs]
      exact runEntries_eq arg rest acc hrest h
    · simp only [Bool.not_eq_true] at hs
      rw [hs] at hhd
      simp only [Bool.false_eq_true, if_false] at hhd
      cases nd with
      | statErr => rwa [runEntries_statErr_abort arg nm rest acc hs]
      | dir ro es2 =>
        have hcl2 : classifiable es2 = true := by simpa using hhd
        rw [runEntries_subdir arg nm ro es2 rest acc hs]
        apply runEntries_eq arg rest _ hrest
        have hsub : (if ro then runEntries arg es2 Stats.zero else Stats.zero).injected +
            (if ro then runEntries arg es2 Stats.zero else Stats.zero).skipped +
            (if ro then runEntries arg es2 Stats.zero else Stats.zero).failed =
            (if ro then runEntries arg es2 Stats.zero else Stats.zero).total := by
          cases hro : ro with
          | true =>
            simp only [if_true]
            exact runEntries_eq arg es2 Stats.zero hcl2 (by decide)
          | false => simp [Stats.zero]
        simp only [Stats.add]
        omega
      | file c w =>
        by_cases hhtml : strEndsWith (strToLower nm) (".html") = true
        · cases c with
          | err =>
            have hbad : (!strEndsWith (strToLower nm) (".html")) = true := by simpa using hhd
            rw [hhtml] at hbad
            simp at hbad
          | ok d0 =>
            cases hr1 : (injectFavicon (SingleFile.mk nm (.ok (FStat.mk true)) (.ok d0) w) arg).1 with
            | true =>
              rw [runEntries_html_true arg nm (.ok d0) w rest acc hs hhtml hr1]
              apply runEntries_eq arg rest _ hrest
              simp only
              omega
            | false =>
              have hunch := (injectFavicon_total_aux
                (SingleFile.mk nm (.ok (FStat.mk true)) (.ok d0) w) arg).2 hr1
              have hr2 : (injectFavicon (SingleFile.mk nm (.ok (FStat.mk true)) (.ok d0) w)
                  arg).2.readRes = .ok d0 := by
                rw [hunch]
              rw [runEntries_html_reclassify arg nm (.ok d0) w rest acc d0 hs hhtml hr1 hr2]
              by_cases hfav : hasFavicon d0 = true
              · rw [if_pos hfav]
                apply runEntries_eq arg rest _ hrest
                simp only
                omega
              · rw [if_neg hfav]
                apply runEntries_eq arg rest _ hrest
                simp only
                omega
        · simp only [Bool.not_eq_true] at hhtml
          rw [runEntries_nonhtml arg nm c w rest acc hs hhtml]
          exact runEntries_eq arg rest acc hrest h

/-- Claim C10: every stats record injectDir returns, error paths
included, satisfies injected + skipped + failed less-or-equal total,
and the two sides are equal whenever no counted file's reclassifying
re-read can throw (the only step that leaves a counted file
unclassified). -/
theorem injectDir_stats_invariant (arg : OptionsArg) (t : Option FSNode) :
    ((injectDir arg t).injected + (injectDir arg t).skipped + (injectDir arg t).failed ≤
      (injectDir arg t).total) ∧
    (classifiableOpt t = true →
      (injectDir arg t).injected + (injectDir arg t).skipped + (injectDir arg t).failed =
        (injectDir arg t).total) := by
  cases t with
  | none => exact ⟨Nat.le_refl 0, fun _ => rfl⟩
  | some n =>
    cases n with
    | file c w => exact ⟨Nat.le_refl 0, fun _ => rfl⟩
    | statErr => exact ⟨Nat.le_refl 0, fun _ => rfl⟩
    | dir ro es =>
      show (injectDirNode arg (FSNode.dir ro es)).injected + _ + _ ≤ _ ∧ _
      rw [injectDirNode.eq_def]
      cases hro : ro with
      | false => exact ⟨Nat.le_refl 0, fun _ => rfl⟩
      | true =>
        simp only [if_true]
        constructor
        · exact runEntries_le arg es Stats.zero (by decide)
        · intro hcl
          rw [classifiableOpt, classifiableNode_dir] at hcl
          exact runEntries_eq arg es Stats.zero hcl (by decide)

/-- Witness for claim C10 at a concrete classifiable tree. -/
theorem injectDir_stats_invariant_witness :
    (injectDir (OptionsArg.str "/favicon.ico") (some sampleTree)).injected +
      (injectDir (OptionsArg.str "/favicon.ico") (some sampleTree)).skipped +
      (injectDir (OptionsArg.str "/favicon.ico") (some sampleTree)).failed =
      (injectDir (OptionsArg.str "/favicon.ico") (some sampleTree)).total :=
  (injectDir_stats_invariant (OptionsArg.str "/favicon.ico") (some sampleTree)).2 (by decide)

end FaviconInjector
